import Mathlib

/-!
# Verification of the ProfitLossApp reconciliation pipeline

Shallow embedding of `src/app.py` (`process_spend_and_revenue`): the
spend/revenue reconciliation pipeline of the profit/loss reporting tool.

Modelling conventions:
* Calendar dates (`pd.to_datetime` results) are modelled as already parsed
  day numbers of type `Int`; the join and the comparisons only use ordering
  and equality of dates.
* Monetary amounts and rates are modelled as `Rat` (the script uses pandas
  floats; no claim under consideration depends on rounding).
* Pandas `NaN` cells (produced by the left merge for unmatched rows and
  propagated by arithmetic) are modelled as `none : Option _`; a `NaN`
  comparison in a filter is `false`, exactly as in pandas.
* `astype(int)` produces `int64`; campaign ids are modelled as `Int`
  (no claim exercises 64-bit overflow).
-/

/-- One raw row of the spend Excel file (`pd.read_excel(spend_file)`).
`costPerResult` is the cell under the column `Cost per result` when that
column exists (`none` models the absent column), `cprLegacy` is the cell
under a pre-existing column literally named `CPR`, when such a column
exists. -/
structure RawSpendRow where
  adSetName : String
  day : Int
  amountSpent : Rat
  costPerResult : Option Rat
  cprLegacy : Option Rat
deriving DecidableEq

/-- One raw row of the revenue CSV (`pd.read_csv(revenue_file)`). Field
names follow the source columns `campid`, `date`, `clicks`,
`estimated_earnings`. -/
structure RevenueEvent where
  campid : Int
  date : Int
  clicks : Int
  estimated_earnings : Rat
deriving DecidableEq

/-- One row of `revenue_agg` after the `groupby(['campid','date']).agg`
and the renames of lines 13-23 of `app.py`. -/
structure AggRow where
  campId : Int
  date : Int
  totalClicks : Int
  revenue : Rat
deriving DecidableEq

/-- A spend row after the normalisation of lines 26-33 of `app.py`:
`Camp ID` extracted from `Ad set name`, `Date` from `Day`, and the
resolved `CPR` column. -/
structure NormSpend where
  campId : Int
  adSetName : String
  date : Int
  amountSpent : Rat
  cpr : Rat
deriving DecidableEq

/-- One row of `merged_data` after the left merge (line 36) and the metric
columns `RPC` (lines 37-38) and `Profit/Loss` (line 39). `revenue`,
`totalClicks` and `profitLoss` are `none` exactly where pandas holds
`NaN`. -/
structure MergedRecord where
  campId : Int
  adSetName : String
  date : Int
  amountSpent : Rat
  cpr : Rat
  revenue : Option Rat
  totalClicks : Option Int
  rpc : Rat
  profitLoss : Option Rat
deriving DecidableEq

/-- The `filters` dictionary built by the UI (lines 125-131 of `app.py`):
optional dates, a (possibly empty) campaign id allow-list and optional
profit/loss bounds. -/
structure FilterSpec where
  start_date : Option Int
  end_date : Option Int
  campaign_ids : List Int
  profit_loss_min : Option Rat
  profit_loss_max : Option Rat
deriving DecidableEq

/-- Value of a decimal digit string, as `int` applied to the captured
group of the regular expression. -/
def digitsToInt (ds : List Char) : Int :=
  (ds.foldl (fun n c => 10 * n + (c.toNat - '0'.toNat)) 0 : Nat)

/-- Does the list start with a closing parenthesis? -/
def startsWithClose : List Char → Bool
  | ')' :: _ => true
  | _ => false

/-- `str.extract(r'\((\d+)\)')` on one cell (line 26 of `app.py`): the
leftmost occurrence of an opening parenthesis followed by at least one
digit and then a closing parenthesis yields the digit group; `none` when
no such occurrence exists (pandas puts `NaN`). -/
def extractCampId : List Char → Option Int
  | [] => none
  | c :: rest =>
    if c = '(' then
      let ds := rest.takeWhile Char.isDigit
      if !ds.isEmpty && startsWithClose (rest.drop ds.length) then
        some (digitsToInt ds)
      else
        extractCampId rest
    else
      extractCampId rest

/-- Lines 30-33 of `app.py`: when the column `Cost per result` exists it
is renamed to `CPR`; otherwise `CPR` is assigned the constant 0, which
also overwrites any pre-existing `CPR` column, so `cprLegacy` is never
consulted. -/
def resolveCPR (r : RawSpendRow) : Rat :=
  match r.costPerResult with
  | some v => v
  | none => 0

/-- Normalisation of one spend row (lines 26-33): extracted campaign id,
parsed date, spend and resolved CPR. `none` when the ad-set name has no
parenthesized integer. -/
def normalizeRow (r : RawSpendRow) : Option NormSpend :=
  (extractCampId r.adSetName.toList).map fun cid =>
    { campId := cid
      adSetName := r.adSetName
      date := r.day
      amountSpent := r.amountSpent
      cpr := resolveCPR r }

/-- Column-wise normalisation of the spend frame. `.astype(int)` on the
extracted column raises as soon as any cell is `NaN`, so a single
malformed ad-set name makes the whole call fail (`none`); otherwise every
row is normalised in order. -/
def normalizeSpends : List RawSpendRow → Option (List NormSpend)
  | [] => some []
  | r :: rs =>
    match normalizeRow r, normalizeSpends rs with
    | some n, some ns => some (n :: ns)
    | _, _ => none

/-- The grouping key of a revenue event: `(campid, date)`. -/
def keyOf (r : RevenueEvent) : Int × Int := (r.campid, r.date)

/-- Lexicographic order on group keys; pandas `groupby(..., sort=True)`
emits the groups in this order. -/
def keyLe (a b : Int × Int) : Prop :=
  a.1 < b.1 ∨ (a.1 = b.1 ∧ a.2 ≤ b.2)

instance : DecidableRel keyLe := fun a b => by
  unfold keyLe
  infer_instance

instance : IsTrans (Int × Int) keyLe where
  trans a b c hab hbc := by
    rcases hab with h | ⟨h1, h2⟩ <;> rcases hbc with h' | ⟨h1', h2'⟩ <;>
      unfold keyLe <;> omega

instance : IsTotal (Int × Int) keyLe where
  total a b := by
    unfold keyLe
    omega

instance : IsAntisymm (Int × Int) keyLe where
  antisymm a b hab hba := by
    rcases a with ⟨a1, a2⟩
    rcases b with ⟨b1, b2⟩
    unfold keyLe at hab hba
    simp only [Prod.mk.injEq]
    omega

/-- Sum of `clicks` over the rows of one group. -/
def sumClicks (rows : List RevenueEvent) (k : Int × Int) : Int :=
  ((rows.filter fun r => decide (keyOf r = k)).map RevenueEvent.clicks).sum

/-- Sum of `estimated_earnings` over the rows of one group. -/
def sumEarnings (rows : List RevenueEvent) (k : Int × Int) : Rat :=
  ((rows.filter fun r => decide (keyOf r = k)).map RevenueEvent.estimated_earnings).sum

/-- Lines 13-23 of `app.py`: `groupby(['campid','date'])` with summed
`clicks` and `estimated_earnings`, renamed to `Camp ID`, `Date`,
`Total Clicks`, `Revenue`. One row per distinct key, keys in sorted
order (the pandas groupby default). -/
def aggregateRevenue (rows : List RevenueEvent) : List AggRow :=
  (List.insertionSort keyLe (rows.map keyOf).dedup).map fun k =>
    { campId := k.1
      date := k.2
      totalClicks := sumClicks rows k
      revenue := sumEarnings rows k }

/-- The merged row for a spend row whose key matches the aggregated
revenue row `a`: `RPC = Revenue / Total Clicks` with the infinities and
`NaN` produced by a zero click count replaced by 0 (lines 37-38), and
`Profit/Loss = Revenue - Amount spent (USD)` (line 39). -/
def matchedRecord (s : NormSpend) (a : AggRow) : MergedRecord :=
  { campId := s.campId
    adSetName := s.adSetName
    date := s.date
    amountSpent := s.amountSpent
    cpr := s.cpr
    revenue := some a.revenue
    totalClicks := some a.totalClicks
    rpc := if a.totalClicks = 0 then 0 else a.revenue / (a.totalClicks : Rat)
    profitLoss := some (a.revenue - s.amountSpent) }

/-- The merged row for a spend row with no matching revenue key: the left
merge leaves `Revenue` and `Total Clicks` as `NaN`; `RPC = NaN/NaN = NaN`
is turned into 0 by `fillna(0)` (line 38), but `Profit/Loss =
NaN - spend = NaN` is never filled (line 39). -/
def unmatchedRecord (s : NormSpend) : MergedRecord :=
  { campId := s.campId
    adSetName := s.adSetName
    date := s.date
    amountSpent := s.amountSpent
    cpr := s.cpr
    revenue := none
    totalClicks := none
    rpc := 0
    profitLoss := none }

/-- The join key carried by an aggregated revenue row: `(Camp ID, Date)`. -/
def aggKey (a : AggRow) : Int × Int := (a.campId, a.date)

/-- The aggregated-revenue rows matching one spend row's `(Camp ID, Date)`
key, as compared by the merge of line 36. -/
def aggMatches (agg : List AggRow) (s : NormSpend) : List AggRow :=
  agg.filter fun a => decide (aggKey a = (s.campId, s.date))

/-- Line 36 of `app.py`: `spends_df.merge(revenue_agg, how='left',
on=['Camp ID','Date'])`, followed by the metric columns of lines 37-39.
A left merge emits, for each left row in order, one output row per
matching right row, or a single `NaN`-filled row when there is none. -/
def mergedData (agg : List AggRow) : List NormSpend → List MergedRecord
  | [] => []
  | s :: ss =>
    (if (aggMatches agg s).isEmpty then [unmatchedRecord s]
     else (aggMatches agg s).map (matchedRecord s)) ++ mergedData agg ss

/-- `merged_data['Profit/Loss'] >= bound` on one cell: a `NaN` cell
compares `False` in pandas. -/
def plGe (pl : Option Rat) (bound : Rat) : Bool :=
  match pl with
  | some v => decide (bound ≤ v)
  | none => false

/-- `merged_data['Profit/Loss'] <= bound` on one cell: a `NaN` cell
compares `False` in pandas. -/
def plLe (pl : Option Rat) (bound : Rat) : Bool :=
  match pl with
  | some v => decide (v ≤ bound)
  | none => false

/-- Lines 42-43 of `app.py`: `if filters['start_date']:` keep the rows
with `Date >= start_date`; a `None` bound leaves the frame unchanged. -/
def filterStart (sd : Option Int) (data : List MergedRecord) : List MergedRecord :=
  match sd with
  | some d => data.filter fun m => decide (d ≤ m.date)
  | none => data

/-- Lines 44-45 of `app.py`: `Date <= end_date` when set. -/
def filterEnd (ed : Option Int) (data : List MergedRecord) : List MergedRecord :=
  match ed with
  | some d => data.filter fun m => decide (m.date ≤ d)
  | none => data

/-- Lines 46-47 of `app.py`: `if filters['campaign_ids']:` — an empty
allow-list is falsy, so it imposes no restriction; otherwise keep the rows
whose `Camp ID` is in the list. -/
def filterCamp (cids : List Int) (data : List MergedRecord) : List MergedRecord :=
  if cids.isEmpty then data
  else data.filter fun m => decide (m.campId ∈ cids)

/-- Lines 48-49 of `app.py`: `Profit/Loss >= profit_loss_min` whenever the
bound `is not None`; a `NaN` cell fails the comparison. -/
def filterMin (b? : Option Rat) (data : List MergedRecord) : List MergedRecord :=
  match b? with
  | some b => data.filter fun m => plGe m.profitLoss b
  | none => data

/-- Lines 50-51 of `app.py`: `Profit/Loss <= profit_loss_max` whenever the
bound `is not None`; a `NaN` cell fails the comparison. -/
def filterMax (b? : Option Rat) (data : List MergedRecord) : List MergedRecord :=
  match b? with
  | some b => data.filter fun m => plLe m.profitLoss b
  | none => data

/-- Lines 42-51 of `app.py`: the five optional filters, applied in
sequence to `merged_data`. -/
def applyFilters (data : List MergedRecord) (filters : FilterSpec) : List MergedRecord :=
  filterMax filters.profit_loss_max
    (filterMin filters.profit_loss_min
      (filterCamp filters.campaign_ids
        (filterEnd filters.end_date
          (filterStart filters.start_date data))))

/-- Order used by `sort_values(by=['Date', 'Camp ID'])` (line 54):
`Date` ascending, then `Camp ID` ascending. -/
def recLe (a b : MergedRecord) : Prop :=
  a.date < b.date ∨ (a.date = b.date ∧ a.campId ≤ b.campId)

instance : DecidableRel recLe := fun a b => by
  unfold recLe
  infer_instance

instance : IsTrans MergedRecord recLe where
  trans a b c hab hbc := by
    rcases hab with h | ⟨h1, h2⟩ <;> rcases hbc with h' | ⟨h1', h2'⟩ <;>
      unfold recLe <;> omega

instance : IsTotal MergedRecord recLe where
  total a b := by
    unfold recLe
    omega

/-- Line 54 of `app.py`: `sort_values` on the two keys `Date`, `Camp ID`;
a multi-key `sort_values` uses pandas' stable lexicographic sort, modelled
by a stable sorting algorithm. -/
def sortRecords (l : List MergedRecord) : List MergedRecord :=
  List.insertionSort recLe l

/-- One data row of the output worksheet, fields in the column order of
line 57: `Camp ID`, `Ad set name`, `Date`, `Amount spent (USD)`,
`Revenue`, `CPR`, `RPC`, `Profit/Loss`. -/
structure OutputRow where
  campId : Int
  adSetName : String
  date : Int
  spend : Rat
  revenue : Option Rat
  cpr : Rat
  rpc : Rat
  profitLoss : Option Rat
deriving DecidableEq

/-- Column selection of lines 57-58 of `app.py`. -/
def outputRow (m : MergedRecord) : OutputRow :=
  { campId := m.campId
    adSetName := m.adSetName
    date := m.date
    spend := m.amountSpent
    revenue := m.revenue
    cpr := m.cpr
    rpc := m.rpc
    profitLoss := m.profitLoss }

/-- The whole pipeline of `process_spend_and_revenue` (lines 8-58 of
`app.py`) up to the data rows written into the workbook: normalisation,
aggregation, left merge with metrics, filters, sort, column selection.
`none` models the call raising before producing a workbook. -/
def process_spend_and_revenue (spends : List RawSpendRow) (rev : List RevenueEvent)
    (filters : FilterSpec) : Option (List OutputRow) :=
  (normalizeSpends spends).map fun ns =>
    (sortRecords (applyFilters (mergedData (aggregateRevenue rev) ns) filters)).map outputRow

/-- A `FilterSpec` with nothing set: no date bounds, empty allow-list, no
profit/loss bounds. -/
def noFilters : FilterSpec :=
  { start_date := none
    end_date := none
    campaign_ids := []
    profit_loss_min := none
    profit_loss_max := none }

/-- The `Date >= start_date` predicate of the filter chain, as a predicate
on one record; `true` when the bound is unset. -/
def passStart (sd : Option Int) (m : MergedRecord) : Bool :=
  match sd with
  | some d => decide (d ≤ m.date)
  | none => true

/-- The `Date <= end_date` predicate; `true` when the bound is unset. -/
def passEnd (ed : Option Int) (m : MergedRecord) : Bool :=
  match ed with
  | some d => decide (m.date ≤ d)
  | none => true

/-- The `Camp ID in campaign_ids` predicate; a membership test only when
the allow-list is non-empty, `true` otherwise. -/
def passCamp (cids : List Int) (m : MergedRecord) : Bool :=
  cids.isEmpty || decide (m.campId ∈ cids)

/-- The `Profit/Loss >= profit_loss_min` predicate; `true` when the bound
is unset, and `false` on a `NaN` cell when it is set. -/
def passMin (b? : Option Rat) (m : MergedRecord) : Bool :=
  match b? with
  | some b => plGe m.profitLoss b
  | none => true

/-- The `Profit/Loss <= profit_loss_max` predicate; `true` when the bound
is unset, and `false` on a `NaN` cell when it is set. -/
def passMax (b? : Option Rat) (m : MergedRecord) : Bool :=
  match b? with
  | some b => plLe m.profitLoss b
  | none => true

/-- The conjunction of the five filter predicates, in the order the spec
lists them. -/
def passAll (f : FilterSpec) (m : MergedRecord) : Bool :=
  passStart f.start_date m &&
    (passEnd f.end_date m &&
      (passCamp f.campaign_ids m &&
        (passMin f.profit_loss_min m && passMax f.profit_loss_max m)))

/-- Follows the words of spec §4.1 "Cost-per-result resolution", for
comparison with `resolveCPR` from the source: inspect the row for the
cost-per-result field under a prioritized list of accepted names, the
primary name (`Cost per result`) first, then the legacy alias (`CPR`);
the first present wins, 0 when neither is present. -/
def specResolveCPR (r : RawSpendRow) : Rat :=
  match r.costPerResult with
  | some v => v
  | none =>
    match r.cprLegacy with
    | some v => v
    | none => 0

/-! ## Concrete exhibit data -/

/-- A well-formed spend row: campaign id 42 embedded in the ad-set name. -/
def exPromo : RawSpendRow :=
  { adSetName := "Promo (42)", day := 1, amountSpent := 100
    costPerResult := none, cprLegacy := none }

/-- A spend row whose ad-set name has no parenthesized integer. -/
def exMalformed : RawSpendRow :=
  { adSetName := "No Parens Here", day := 1, amountSpent := 50
    costPerResult := none, cprLegacy := none }

/-- A spend row for campaign 7 on day 1. -/
def exSpendA : RawSpendRow :=
  { adSetName := "A (7)", day := 1, amountSpent := 10
    costPerResult := none, cprLegacy := none }

/-- A second spend row with the same `(campaign, day)` key as `exSpendA`
but a different ad-set name and spend. -/
def exSpendB : RawSpendRow :=
  { adSetName := "B (7)", day := 1, amountSpent := 20
    costPerResult := none, cprLegacy := none }

/-- A spend row carrying a value only under the legacy `CPR` column, not
under `Cost per result`. -/
def exLegacy : RawSpendRow :=
  { adSetName := "X (1)", day := 1, amountSpent := 5
    costPerResult := none, cprLegacy := some 7 }

/-- The normalisation of `exPromo`. -/
def exNorm : NormSpend :=
  { campId := 42, adSetName := "Promo (42)", date := 1, amountSpent := 100, cpr := 0 }

/-- An aggregated revenue row for key `(42, 1)` with zero clicks but
positive revenue. -/
def exAggZero : AggRow :=
  { campId := 42, date := 1, totalClicks := 0, revenue := 5 }

/-- A revenue event for key `(42, 1)`. -/
def exRev42 : RevenueEvent :=
  { campid := 42, date := 1, clicks := 10, estimated_earnings := 150 }

/-- A second revenue event for key `(42, 1)`. -/
def exRev42b : RevenueEvent :=
  { campid := 42, date := 1, clicks := 5, estimated_earnings := 50 }

/-- A revenue event whose key `(99, 3)` matches no exhibit spend row. -/
def exRev99 : RevenueEvent :=
  { campid := 99, date := 3, clicks := 4, estimated_earnings := 6 }

/-- A filter configuration with only a (very permissive) profit/loss lower
bound set. -/
def exMinFilter : FilterSpec :=
  { start_date := none, end_date := none, campaign_ids := []
    profit_loss_min := some (-1000), profit_loss_max := none }

/-- The output row the pipeline produces for `exPromo` when the revenue
file is empty: `RPC` filled with 0, `Revenue` and `Profit/Loss` missing. -/
def exOutRow : OutputRow :=
  { campId := 42, adSetName := "Promo (42)", date := 1, spend := 100
    revenue := none, cpr := 0, rpc := 0, profitLoss := none }

/-! ## Helper lemmas -/

theorem normalizeSpends_eq_none {spends : List RawSpendRow} {r : RawSpendRow}
    (hr : r ∈ spends) (hfail : normalizeRow r = none) :
    normalizeSpends spends = none := by
  induction spends with
  | nil => cases hr
  | cons s ss ih =>
    rcases List.mem_cons.mp hr with rfl | hmem
    · simp [normalizeSpends, hfail]
    · cases hrow : normalizeRow s <;> simp [normalizeSpends, hrow, ih hmem]

theorem normalizeSpends_length {spends : List RawSpendRow} {ns : List NormSpend}
    (h : normalizeSpends spends = some ns) : ns.length = spends.length := by
  induction spends generalizing ns with
  | nil =>
    simp only [normalizeSpends, Option.some.injEq] at h
    subst h
    rfl
  | cons s ss ih =>
    cases hrow : normalizeRow s with
    | none => simp [normalizeSpends, hrow] at h
    | some n =>
      cases hrest : normalizeSpends ss with
      | none => simp [normalizeSpends, hrow, hrest] at h
      | some ms =>
        simp only [normalizeSpends, hrow, hrest, Option.some.injEq] at h
        subst h
        simp [ih hrest]

theorem aggKey_map_aggregateRevenue (rows : List RevenueEvent) :
    (aggregateRevenue rows).map aggKey =
      List.insertionSort keyLe (rows.map keyOf).dedup := by
  unfold aggregateRevenue
  rw [List.map_map]
  have : (aggKey ∘ fun k : Int × Int =>
      ({ campId := k.1, date := k.2, totalClicks := sumClicks rows k,
         revenue := sumEarnings rows k } : AggRow)) = id := by
    funext k
    simp [aggKey]
  rw [this, List.map_id]

theorem aggKey_nodup (rows : List RevenueEvent) :
    ((aggregateRevenue rows).map aggKey).Nodup := by
  rw [aggKey_map_aggregateRevenue]
  exact (List.perm_insertionSort keyLe _).nodup_iff.mpr (List.nodup_dedup _)

theorem aggKey_mem_iff (rows : List RevenueEvent) (k : Int × Int) :
    k ∈ (aggregateRevenue rows).map aggKey ↔ k ∈ rows.map keyOf := by
  rw [aggKey_map_aggregateRevenue,
    (List.perm_insertionSort keyLe _).mem_iff, List.mem_dedup]

theorem sumClicks_perm {rows rows' : List RevenueEvent} (h : rows.Perm rows')
    (k : Int × Int) : sumClicks rows k = sumClicks rows' k :=
  ((h.filter _).map RevenueEvent.clicks).sum_eq

theorem sumEarnings_perm {rows rows' : List RevenueEvent} (h : rows.Perm rows')
    (k : Int × Int) : sumEarnings rows k = sumEarnings rows' k :=
  ((h.filter _).map RevenueEvent.estimated_earnings).sum_eq

theorem aggregateRevenue_perm {rows rows' : List RevenueEvent}
    (h : rows.Perm rows') : aggregateRevenue rows = aggregateRevenue rows' := by
  have hkeys : List.insertionSort keyLe (rows.map keyOf).dedup =
      List.insertionSort keyLe (rows'.map keyOf).dedup := by
    refine List.eq_of_perm_of_sorted ?_
      (List.sorted_insertionSort keyLe _) (List.sorted_insertionSort keyLe _)
    exact ((List.perm_insertionSort keyLe _).trans ((h.map keyOf).dedup)).trans
      (List.perm_insertionSort keyLe _).symm
  unfold aggregateRevenue
  rw [hkeys]
  exact List.map_congr_left fun k _ => by
    simp [sumClicks_perm h, sumEarnings_perm h]

theorem length_filter_aggKey_le_one (agg : List AggRow) (k : Int × Int)
    (hnd : (agg.map aggKey).Nodup) :
    (agg.filter fun a => decide (aggKey a = k)).length ≤ 1 := by
  induction agg with
  | nil => simp
  | cons a l ih =>
    simp only [List.map_cons, List.nodup_cons] at hnd
    by_cases hk : aggKey a = k
    · have hnone : l.filter (fun a => decide (aggKey a = k)) = [] := by
        refine List.filter_eq_nil_iff.mpr fun b hb => ?_
        simp only [decide_eq_true_eq]
        intro hbk
        exact hnd.1 (hk ▸ hbk ▸ List.mem_map_of_mem aggKey hb)
      simp [List.filter_cons, hk, hnone]
    · simpa [List.filter_cons, hk] using ih hnd.2

theorem length_aggMatches_le_one (rows : List RevenueEvent) (s : NormSpend) :
    (aggMatches (aggregateRevenue rows) s).length ≤ 1 :=
  length_filter_aggKey_le_one _ _ (aggKey_nodup rows)

theorem mergedData_length (rows : List RevenueEvent) (ns : List NormSpend) :
    (mergedData (aggregateRevenue rows) ns).length = ns.length := by
  induction ns with
  | nil => rfl
  | cons s ss ih =>
    unfold mergedData
    rw [List.length_append, ih]
    by_cases he : (aggMatches (aggregateRevenue rows) s).isEmpty
    · rw [if_pos he]
      simp only [List.length_singleton, List.length_cons, List.length_nil]
      omega
    · have h1 : 1 ≤ (aggMatches (aggregateRevenue rows) s).length := by
        cases hm : aggMatches (aggregateRevenue rows) s with
        | nil => rw [hm] at he; simp at he
        | cons x xs => simp
      have h2 := length_aggMatches_le_one rows s
      rw [if_neg he, List.length_map]
      simp only [List.length_cons]
      omega

theorem mem_mergedData {agg : List AggRow} {ns : List NormSpend} {m : MergedRecord}
    (h : m ∈ mergedData agg ns) :
    ∃ s ∈ ns, (aggMatches agg s = [] ∧ m = unmatchedRecord s) ∨
      ∃ a ∈ aggMatches agg s, m = matchedRecord s a := by
  induction ns with
  | nil => cases h
  | cons s ss ih =>
    unfold mergedData at h
    rcases List.mem_append.mp h with hl | hr
    · refine ⟨s, List.mem_cons_self s ss, ?_⟩
      by_cases he : (aggMatches agg s).isEmpty
      · rw [if_pos he] at hl
        exact Or.inl ⟨List.isEmpty_iff.mp he, (List.mem_singleton.mp hl)⟩
      · rw [if_neg he] at hl
        rcases List.mem_map.mp hl with ⟨a, ha, rfl⟩
        exact Or.inr ⟨a, ha, rfl⟩
    · rcases ih hr with ⟨t, ht, hcase⟩
      exact ⟨t, List.mem_cons_of_mem s ht, hcase⟩

theorem unmatched_mem_mergedData {agg : List AggRow} {ns : List NormSpend}
    {s : NormSpend} (hs : s ∈ ns) (hnil : aggMatches agg s = []) :
    unmatchedRecord s ∈ mergedData agg ns := by
  induction ns with
  | nil => cases hs
  | cons t ts ih =>
    unfold mergedData
    rcases List.mem_cons.mp hs with rfl | hmem
    · refine List.mem_append.mpr (Or.inl ?_)
      rw [if_pos (by simp [hnil])]
      exact List.mem_singleton.mpr rfl
    · exact List.mem_append.mpr (Or.inr (ih hmem))

theorem aggMatches_eq_nil {rows : List RevenueEvent} {s : NormSpend}
    (h : ∀ r ∈ rows, keyOf r ≠ (s.campId, s.date)) :
    aggMatches (aggregateRevenue rows) s = [] := by
  refine List.filter_eq_nil_iff.mpr fun a ha => ?_
  simp only [decide_eq_true_eq]
  intro hk
  have : (s.campId, s.date) ∈ rows.map keyOf :=
    (aggKey_mem_iff rows _).mp (hk ▸ List.mem_map_of_mem aggKey ha)
  rcases List.mem_map.mp this with ⟨r, hr, hkr⟩
  exact h r hr hkr

theorem filterStart_eq (sd : Option Int) (data : List MergedRecord) :
    filterStart sd data = data.filter (passStart sd) := by
  cases sd with
  | none => exact (List.filter_true data).symm
  | some d => rfl

theorem filterEnd_eq (ed : Option Int) (data : List MergedRecord) :
    filterEnd ed data = data.filter (passEnd ed) := by
  cases ed with
  | none => exact (List.filter_true data).symm
  | some d => rfl

theorem filterCamp_eq (cids : List Int) (data : List MergedRecord) :
    filterCamp cids data = data.filter (passCamp cids) := by
  cases cids with
  | nil => exact (List.filter_true data).symm
  | cons c cs => rfl

theorem filterMin_eq (b? : Option Rat) (data : List MergedRecord) :
    filterMin b? data = data.filter (passMin b?) := by
  cases b? with
  | none => exact (List.filter_true data).symm
  | some b => rfl

theorem filterMax_eq (b? : Option Rat) (data : List MergedRecord) :
    filterMax b? data = data.filter (passMax b?) := by
  cases b? with
  | none => exact (List.filter_true data).symm
  | some b => rfl

theorem bool_and_rev (a b c d e : Bool) :
    (e && d && c && b && a) = (a && (b && (c && (d && e)))) := by
  cases a <;> cases b <;> cases c <;> cases d <;> cases e <;> rfl

theorem applyFilters_eq_filter (data : List MergedRecord) (f : FilterSpec) :
    applyFilters data f = data.filter (passAll f) := by
  unfold applyFilters
  rw [filterStart_eq, filterEnd_eq, filterCamp_eq, filterMin_eq, filterMax_eq,
    List.filter_filter, List.filter_filter, List.filter_filter, List.filter_filter]
  exact List.filter_congr fun m _ =>
    bool_and_rev (passStart f.start_date m) (passEnd f.end_date m)
      (passCamp f.campaign_ids m) (passMin f.profit_loss_min m)
      (passMax f.profit_loss_max m)

theorem sortRecords_filter_stable (l : List MergedRecord) (p : MergedRecord → Bool)
    (hkey : ∀ a b, p a = true → p b = true → recLe a b) :
    (sortRecords l).filter p = l.filter p := by
  have hpair : (l.filter p).Pairwise recLe := by
    refine List.pairwise_of_forall_mem_list fun a ha b hb => ?_
    exact hkey a b (List.mem_filter.mp ha).2 (List.mem_filter.mp hb).2
  have hsub : List.Sublist (l.filter p) (sortRecords l) :=
    List.sublist_insertionSort hpair (List.filter_sublist l)
  have hidem : (l.filter p).filter p = l.filter p := by
    rw [List.filter_filter]
    exact List.filter_congr fun m _ => by cases h : p m <;> rfl
  have hsub2 := hidem ▸ hsub.filter p
  have hperm := (List.perm_insertionSort recLe l).filter p
  exact (hsub2.eq_of_length hperm.length_eq.symm).symm

theorem sortRecords_filter_key (l : List MergedRecord) (d c : Int) :
    (sortRecords l).filter (fun m => decide (m.date = d ∧ m.campId = c)) =
      l.filter (fun m => decide (m.date = d ∧ m.campId = c)) := by
  refine sortRecords_filter_stable l _ fun a b ha hb => ?_
  simp only [decide_eq_true_eq] at ha hb
  unfold recLe
  omega

/-! ## Claim theorems -/

/-- C1, counterexample. The claim says a spend row whose ad-set name
contains no parenthesized integer is excluded on its own while every other
row is still processed. In the code, `str.extract` leaves `NaN` for such a
row and `.astype(int)` then raises, so the whole batch aborts: on a batch
holding the valid row `exPromo` ("Promo (42)") and the malformed row
`exMalformed` ("No Parens Here"), the pipeline yields no output at all —
in particular the valid row is not reported. -/
theorem c1_counterexample :
    extractCampId exPromo.adSetName.toList = some 42 ∧
    extractCampId exMalformed.adSetName.toList = none ∧
    process_spend_and_revenue [exPromo, exMalformed] [] noFilters = none := by
  decide

/-- C1, amended. If any spend row's ad-set name lacks a parenthesized
integer, the whole batch aborts: `process_spend_and_revenue` produces no
output at all, for every revenue input and filter configuration. -/
theorem c1_amended_malformed_aborts_batch (spends : List RawSpendRow)
    (rev : List RevenueEvent) (f : FilterSpec) (r : RawSpendRow)
    (hr : r ∈ spends) (hfail : extractCampId r.adSetName.toList = none) :
    process_spend_and_revenue spends rev f = none := by
  have hrow : normalizeRow r = none := by
    unfold normalizeRow
    rw [hfail]
    rfl
  unfold process_spend_and_revenue
  rw [normalizeSpends_eq_none hr hrow]
  rfl

/-- Witness for C1 amended at a concrete batch. -/
theorem c1_amended_witness :
    exMalformed ∈ [exPromo, exMalformed] ∧
    extractCampId exMalformed.adSetName.toList = none ∧
    process_spend_and_revenue [exPromo, exMalformed] [] noFilters = none :=
  ⟨by decide, by decide,
    c1_amended_malformed_aborts_batch [exPromo, exMalformed] [] noFilters
      exMalformed (by decide) (by decide)⟩

/-- C2, counterexample. The claim says a valid spend row with no matching
revenue key yields a record with `revenue = 0` and `profit_loss = -spend`.
In the code only the `RPC` column is `fillna(0)`-filled; `Revenue` and
`Profit/Loss` stay `NaN`: for `exPromo` (spend 100) with an empty revenue
file, the single output row has `revenue = none` and `profitLoss = none`,
not `some 0` and `some (-100)`. -/
theorem c2_counterexample :
    process_spend_and_revenue [exPromo] [] noFilters = some [exOutRow] ∧
    exOutRow.revenue ≠ some 0 ∧
    exOutRow.profitLoss ≠ some (-100) := by
  decide

/-- C2, amended. A valid spend row whose `(campaign_id, date)` key matches
no aggregated revenue row yields the `NaN`-filled merged row: `rpc = 0`
(the only filled metric), while `revenue`, `total_clicks` and
`profit_loss` remain missing (`NaN`) — `profit_loss` is not `-spend`. -/
theorem c2_amended_unmatched_nan (ns : List NormSpend) (rows : List RevenueEvent)
    (s : NormSpend) (hs : s ∈ ns)
    (hnomatch : ∀ r ∈ rows, keyOf r ≠ (s.campId, s.date)) :
    unmatchedRecord s ∈ mergedData (aggregateRevenue rows) ns ∧
    (unmatchedRecord s).rpc = 0 ∧
    (unmatchedRecord s).revenue = none ∧
    (unmatchedRecord s).totalClicks = none ∧
    (unmatchedRecord s).profitLoss = none :=
  ⟨unmatched_mem_mergedData hs (aggMatches_eq_nil hnomatch), rfl, rfl, rfl, rfl⟩

/-- Witness for C2 amended at a concrete unmatched row. -/
theorem c2_amended_witness :
    exNorm ∈ [exNorm] ∧
    (∀ r ∈ [exRev99], keyOf r ≠ (exNorm.campId, exNorm.date)) ∧
    (unmatchedRecord exNorm ∈ mergedData (aggregateRevenue [exRev99]) [exNorm] ∧
      (unmatchedRecord exNorm).rpc = 0 ∧
      (unmatchedRecord exNorm).revenue = none ∧
      (unmatchedRecord exNorm).totalClicks = none ∧
      (unmatchedRecord exNorm).profitLoss = none) :=
  ⟨by decide, by decide,
    c2_amended_unmatched_nan [exNorm] [exRev99] exNorm (by decide) (by decide)⟩

/-- C3. For every record of the merged frame: a zero click count gives
`rpc = 0` exactly (the `replace([inf, -inf], 0).fillna(0)` policy of lines
37-38, which also covers `revenue > 0` over zero clicks), and a non-zero
click count gives the plain quotient `revenue / total_clicks`. -/
theorem c3_rpc_policy (ns : List NormSpend) (agg : List AggRow) (m : MergedRecord)
    (hm : m ∈ mergedData agg ns) :
    (m.totalClicks = some 0 → m.rpc = 0) ∧
    (∀ c r, m.totalClicks = some c → m.revenue = some r → c ≠ 0 →
      m.rpc = r / (c : Rat)) := by
  rcases mem_mergedData hm with ⟨s, _, hcase⟩
  rcases hcase with ⟨_, rfl⟩ | ⟨a, _, rfl⟩
  · refine ⟨fun h => ?_, fun c r hc => ?_⟩
    · simp [unmatchedRecord] at h
    · simp [unmatchedRecord] at hc
  · constructor
    · intro h
      have hz : a.totalClicks = 0 := by
        simpa [matchedRecord] using h
      simp [matchedRecord, hz]
    · intro c r hc hr hcne
      have hc' : a.totalClicks = c := by simpa [matchedRecord] using hc
      have hr' : a.revenue = r := by simpa [matchedRecord] using hr
      subst hc'
      subst hr'
      simp [matchedRecord, hcne]

/-- Witness for C3 at a concrete matched record with zero clicks and
positive revenue. -/
theorem c3_witness :
    matchedRecord exNorm exAggZero ∈ mergedData [exAggZero] [exNorm] ∧
    (((matchedRecord exNorm exAggZero).totalClicks = some 0 →
        (matchedRecord exNorm exAggZero).rpc = 0) ∧
      (∀ c r, (matchedRecord exNorm exAggZero).totalClicks = some c →
        (matchedRecord exNorm exAggZero).revenue = some r → c ≠ 0 →
        (matchedRecord exNorm exAggZero).rpc = r / (c : Rat))) := by
  have hmem : matchedRecord exNorm exAggZero ∈ mergedData [exAggZero] [exNorm] :=
    List.mem_cons_self _ _
  exact ⟨hmem, c3_rpc_policy [exNorm] [exAggZero] _ hmem⟩

/-- C4. The left merge of line 36 neither drops nor duplicates spend rows:
the merged frame has exactly one row per normalized spend row, and (since
`astype(int)` aborts on any malformed name) a batch that normalises at all
normalises every row, so the merged row count equals the spend row count. -/
theorem c4_join_cardinality (spends : List RawSpendRow) (rev : List RevenueEvent)
    (ns : List NormSpend) (h : normalizeSpends spends = some ns) :
    (mergedData (aggregateRevenue rev) ns).length = ns.length ∧
    ns.length = spends.length :=
  ⟨mergedData_length rev ns, normalizeSpends_length h⟩

/-- Witness for C4 at a concrete batch. -/
theorem c4_witness :
    normalizeSpends [exPromo] = some [exNorm] ∧
    ((mergedData (aggregateRevenue [exRev42]) [exNorm]).length = [exNorm].length ∧
      [exNorm].length = [exPromo].length) :=
  ⟨by decide, c4_join_cardinality [exPromo] [exRev42] [exNorm] (by decide)⟩

/-- C5. The aggregation of lines 13-16 produces one row per distinct
`(campid, date)` key — the emitted keys are exactly the distinct input
keys, without duplicates — carrying the group sums of `clicks` and
`estimated_earnings`; and any two orderings of the same revenue rows
aggregate to the very same row list. -/
theorem c5_aggregation (rows rows' : List RevenueEvent) (hperm : rows.Perm rows') :
    ((aggregateRevenue rows).map aggKey).Nodup ∧
    (∀ k, k ∈ (aggregateRevenue rows).map aggKey ↔ k ∈ rows.map keyOf) ∧
    (∀ a ∈ aggregateRevenue rows,
      a.totalClicks = sumClicks rows (aggKey a) ∧
      a.revenue = sumEarnings rows (aggKey a)) ∧
    aggregateRevenue rows = aggregateRevenue rows' := by
  refine ⟨aggKey_nodup rows, aggKey_mem_iff rows, ?_, aggregateRevenue_perm hperm⟩
  intro a ha
  unfold aggregateRevenue at ha
  rcases List.mem_map.mp ha with ⟨k, _, rfl⟩
  exact ⟨by simp [aggKey], by simp [aggKey]⟩

/-- Witness for C5 at two orderings of a concrete pair of revenue rows. -/
theorem c5_witness :
    [exRev42, exRev42b].Perm [exRev42b, exRev42] ∧
    (((aggregateRevenue [exRev42, exRev42b]).map aggKey).Nodup ∧
      (∀ k, k ∈ (aggregateRevenue [exRev42, exRev42b]).map aggKey ↔
        k ∈ [exRev42, exRev42b].map keyOf) ∧
      (∀ a ∈ aggregateRevenue [exRev42, exRev42b],
        a.totalClicks = sumClicks [exRev42, exRev42b] (aggKey a) ∧
        a.revenue = sumEarnings [exRev42, exRev42b] (aggKey a)) ∧
      aggregateRevenue [exRev42, exRev42b] = aggregateRevenue [exRev42b, exRev42]) :=
  ⟨by decide, c5_aggregation [exRev42, exRev42b] [exRev42b, exRev42] (by decide)⟩

/-- C6. The sequential filter chain of lines 42-51 returns exactly the
records satisfying the conjunction of the set predicates: `passAll` is the
AND of the five per-dimension predicates, each an inclusive bound
(`date >= start`, `date <= end`, `profit >= min`, `profit <= max`) when
set and a no-op (`true`) when unset, with campaign membership enforced
only when the allow-list is non-empty. -/
theorem c6_filter_conjunction (data : List MergedRecord) (f : FilterSpec) :
    applyFilters data f = data.filter (passAll f) :=
  applyFilters_eq_filter data f

/-- C7. The sort of line 54 orders the filtered rows by `Date` ascending
then `Camp ID` ascending, is a permutation (no row lost or added), and is
stable: the rows sharing any fixed `(Date, Camp ID)` key appear in the
output exactly in their input order. -/
theorem c7_sort_contract (l : List MergedRecord) :
    (sortRecords l).Pairwise recLe ∧
    (sortRecords l).Perm l ∧
    (∀ d c, (sortRecords l).filter (fun m => decide (m.date = d ∧ m.campId = c)) =
      l.filter (fun m => decide (m.date = d ∧ m.campId = c))) :=
  ⟨List.sorted_insertionSort recLe l, List.perm_insertionSort recLe l,
    sortRecords_filter_key l⟩

/-- C8, counterexample. The claim says any reordering of the input rows
gives an identical output table. Reordering two spend rows that share the
same `(Date, Camp ID)` key — `exSpendA` ("A (7)") and `exSpendB`
("B (7)"), both campaign 7 on day 1 — changes the output row order,
because the final sort is stable and ties keep input order. -/
theorem c8_counterexample :
    [exSpendA, exSpendB].Perm [exSpendB, exSpendA] ∧
    process_spend_and_revenue [exSpendA, exSpendB] [] noFilters ≠
      process_spend_and_revenue [exSpendB, exSpendA] [] noFilters := by
  decide

/-- C8, amended. For a fixed spend row order, the pipeline output is
identical for any ordering of the revenue rows (revenue aggregation is
order-independent); reordering spend rows that tie on `(Date, Camp ID)`
can reorder output rows. -/
theorem c8_amended_revenue_order_invariance (spends : List RawSpendRow)
    (rev rev' : List RevenueEvent) (f : FilterSpec) (h : rev.Perm rev') :
    process_spend_and_revenue spends rev f =
      process_spend_and_revenue spends rev' f := by
  unfold process_spend_and_revenue
  rw [aggregateRevenue_perm h]

/-- Witness for C8 amended at two orderings of a concrete revenue file. -/
theorem c8_amended_witness :
    [exRev42, exRev42b].Perm [exRev42b, exRev42] ∧
    process_spend_and_revenue [exPromo] [exRev42, exRev42b] noFilters =
      process_spend_and_revenue [exPromo] [exRev42b, exRev42] noFilters :=
  ⟨by decide,
    c8_amended_revenue_order_invariance [exPromo] [exRev42, exRev42b]
      [exRev42b, exRev42] noFilters (by decide)⟩

/-- C9, counterexample. The claim says the resolved cost-per-result falls
back to a legacy alias (`CPR`) when the primary name (`Cost per result`)
is absent. The code only checks the primary name and otherwise assigns 0
(overwriting a pre-existing `CPR` column): on `exLegacy`, which carries 7
under the legacy name only, the code resolves 0 while the spec's priority
list resolves 7. -/
theorem c9_counterexample :
    exLegacy.costPerResult = none ∧
    exLegacy.cprLegacy = some 7 ∧
    specResolveCPR exLegacy = 7 ∧
    resolveCPR exLegacy = 0 ∧
    resolveCPR exLegacy ≠ specResolveCPR exLegacy := by
  decide

/-- C9, amended. The code's accepted-name list holds only the primary name
`Cost per result`: the resolved CPR is that field when present and 0
otherwise, and a legacy `CPR` field is never consulted — its value does
not influence the resolution. -/
theorem c9_amended_primary_only (r : RawSpendRow) (v : Option Rat) :
    resolveCPR r = r.costPerResult.getD 0 ∧
    resolveCPR { r with cprLegacy := v } = resolveCPR r := by
  cases h : r.costPerResult <;> simp [resolveCPR, h]

/-- C10. Whenever a profit/loss bound is set, a spend row whose
`(campaign_id, date)` key matches no aggregated revenue row is excluded
from the filtered output: its merged row (which is present before
filtering) carries `profitLoss = none` (`NaN`), and a `NaN` cell fails
both inclusive bound comparisons. -/
theorem c10_unmatched_excluded_when_bounded (ns : List NormSpend)
    (rows : List RevenueEvent) (s : NormSpend) (f : FilterSpec)
    (hs : s ∈ ns)
    (hnomatch : ∀ r ∈ rows, keyOf r ≠ (s.campId, s.date))
    (hbound : f.profit_loss_min.isSome = true ∨ f.profit_loss_max.isSome = true) :
    unmatchedRecord s ∈ mergedData (aggregateRevenue rows) ns ∧
    unmatchedRecord s ∉ applyFilters (mergedData (aggregateRevenue rows) ns) f := by
  refine ⟨unmatched_mem_mergedData hs (aggMatches_eq_nil hnomatch), ?_⟩
  rw [applyFilters_eq_filter]
  intro hmem
  have hp := (List.mem_filter.mp hmem).2
  unfold passAll at hp
  simp only [Bool.and_eq_true] at hp
  rcases hbound with hb | hb
  · cases hmin : f.profit_loss_min with
    | none => rw [hmin] at hb; cases hb
    | some b =>
      have := hp.2.2.2.1
      rw [hmin] at this
      simp [passMin, plGe, unmatchedRecord] at this
  · cases hmax : f.profit_loss_max with
    | none => rw [hmax] at hb; cases hb
    | some b =>
      have := hp.2.2.2.2
      rw [hmax] at this
      simp [passMax, plLe, unmatchedRecord] at this

/-- Witness for C10 at a concrete unmatched row and a lower bound `-1000`
that the row's `-spend = -100` would satisfy. -/
theorem c10_witness :
    exNorm ∈ [exNorm] ∧
    (∀ r ∈ [exRev99], keyOf r ≠ (exNorm.campId, exNorm.date)) ∧
    (exMinFilter.profit_loss_min.isSome = true ∨
      exMinFilter.profit_loss_max.isSome = true) ∧
    plGe (some (-(exNorm.amountSpent))) (-1000) = true ∧
    (unmatchedRecord exNorm ∈ mergedData (aggregateRevenue [exRev99]) [exNorm] ∧
      unmatchedRecord exNorm ∉
        applyFilters (mergedData (aggregateRevenue [exRev99]) [exNorm]) exMinFilter) :=
  ⟨by decide, by decide, by decide, by decide,
    c10_unmatched_excluded_when_bounded [exNorm] [exRev99] exNorm exMinFilter
      (by decide) (by decide) (by decide)⟩
